import Mathlib

/-!
Verification of the `postmarkee` Postmark API client.

This file gives a shallow embedding of the crate's data model and the
operations the specification talks about:

* `src/base_url.rs` — the validated `BaseUrl` newtype over `url::Url`;
* `src/client.rs` — `EmailBody::into_tuple`, the `SendEmailPayload`
  serialization, the `SendReceipt`/`ErrorReceipt` deserialization and the
  status-code dispatch inside `PostmarkClient::send_email`;
* `src/inbound.rs` — the `InboundEmail` model with its serde codecs:
  the `rfc2822_serde` date codec (chrono format string
  `"%a, %-d %b %Y %H:%M:%S %:z"`) and the `base64_serde` binary codec.

JSON documents are modelled as an abstract syntax tree (`Json`); the
round-trip laws of the spec are stated as structural equality of these
trees, which matches serde's data model (string escaping and whitespace
of the concrete text are not part of the claims).
-/

/-- JSON value tree, the common data model of `serde_json`. -/
inductive Json where
  | null
  | bool (b : Bool)
  | num (n : Int)
  | str (s : String)
  | arr (xs : List Json)
  | obj (fs : List (String × Json))
deriving Repr

/-! ## Decimal digits: formatting and scanning

`chrono` formats numeric fields with Rust's `{}` / `{:0w}` formatting and
parses them with `scan::number(s, min, max)`, which consumes a maximal
digit prefix of at most `max` characters and requires at least `min`. -/

def isDigitCh (c : Char) : Bool := 48 ≤ c.toNat && c.toNat ≤ 57

def digitVal (c : Char) : Nat := c.toNat - 48

/-- Little-endian decimal digits, by structural recursion on a fuel
bound (so that it evaluates inside the kernel); agrees with
`Nat.digits 10` by `natDigits_eq`. -/
def natDigitsAux : Nat → Nat → List Nat
  | 0, _ => []
  | _ + 1, 0 => []
  | fuel + 1, n + 1 => (n + 1) % 10 :: natDigitsAux fuel ((n + 1) / 10)

def natDigits (n : Nat) : List Nat := natDigitsAux n n

theorem natDigitsAux_eq (fuel : Nat) : ∀ n, n ≤ fuel →
    natDigitsAux fuel n = Nat.digits 10 n := by
  induction fuel with
  | zero =>
      intro n hn
      have : n = 0 := Nat.le_zero.mp hn
      subst this
      exact (Nat.digits_zero 10).symm
  | succ f ih =>
      intro n hn
      cases n with
      | zero => exact (Nat.digits_zero 10).symm
      | succ m =>
          rw [show natDigitsAux (f + 1) (m + 1) =
              (m + 1) % 10 :: natDigitsAux f ((m + 1) / 10) from rfl,
            ih ((m + 1) / 10) (by
              have := Nat.div_lt_self (Nat.succ_pos m) (by norm_num : 1 < 10)
              omega),
            Nat.digits_def' (by norm_num : 1 < 10) (Nat.succ_pos m)]

theorem natDigits_eq (n : Nat) : natDigits n = Nat.digits 10 n :=
  natDigitsAux_eq n n (Nat.le_refl n)

/-- Decimal digit characters of `n`, most significant first (`"{}"`). -/
def natChars (n : Nat) : List Char :=
  if n = 0 then ['0'] else (natDigits n).reverse.map Nat.digitChar

/-- Zero-padded decimal of width `w` (`"{:0w}"`); wider numbers are not
truncated. -/
def padChars (w : Nat) (n : Nat) : List Char :=
  List.replicate (w - (if n = 0 then 1 else (natDigits n).length)) '0' ++ natChars n

/-- Scan at most `fuel` further digit characters, accumulating a decimal
value (the loop inside chrono's `scan::number`). -/
def scanDigits : Nat → Nat → List Char → Nat × List Char
  | 0, acc, s => (acc, s)
  | _ + 1, acc, [] => (acc, [])
  | fuel + 1, acc, c :: rest =>
      if isDigitCh c then scanDigits fuel (acc * 10 + digitVal c) rest
      else (acc, c :: rest)

/-- chrono `scan::number(s, 1, maxD)`: at least one digit, at most `maxD`. -/
def scanNumber (maxD : Nat) (s : List Char) : Option (Nat × List Char) :=
  match s with
  | c :: rest =>
      if isDigitCh c then some (scanDigits (maxD - 1) (digitVal c) rest) else none
  | [] => none

/-- chrono `scan::number(s, 1, usize::MAX)`: the input length bounds what
can be consumed, so it serves as the fuel. -/
def scanNumberAll (s : List Char) : Option (Nat × List Char) :=
  scanNumber s.length s

/-- Decimal value of a digit string, most significant first. -/
def valChars (ds : List Char) : Nat :=
  ds.foldl (fun a c => a * 10 + digitVal c) 0

/-! ### Lemmas about digit scanning -/

/-- The head of `rest` (if any) is not a decimal digit. -/
def headNotDigit : List Char → Prop
  | [] => True
  | c :: _ => isDigitCh c = false

theorem scanDigits_exact (ds : List Char) (rest : List Char) (acc : Nat)
    (h : ∀ c ∈ ds, isDigitCh c = true) :
    scanDigits ds.length acc (ds ++ rest) =
      (ds.foldl (fun a c => a * 10 + digitVal c) acc, rest) := by
  induction ds generalizing acc with
  | nil => rfl
  | cons c tl ih =>
      simp only [List.length_cons, List.cons_append, scanDigits,
        h c (List.mem_cons_self c tl), if_true, List.foldl_cons]
      exact ih _ (fun x hx => h x (List.mem_cons_of_mem c hx))

theorem scanDigits_stop (ds : List Char) (rest : List Char) (hr : headNotDigit rest) :
    ∀ fuel acc, (∀ c ∈ ds, isDigitCh c = true) → ds.length ≤ fuel →
    scanDigits fuel acc (ds ++ rest) =
      (ds.foldl (fun a c => a * 10 + digitVal c) acc, rest) := by
  induction ds with
  | nil =>
      intro fuel acc _ _
      cases fuel with
      | zero => rfl
      | succ n =>
          cases rest with
          | nil => rfl
          | cons r rs =>
              simp only [List.nil_append, scanDigits, List.foldl_nil]
              simp only [headNotDigit] at hr
              simp [hr]
  | cons c tl ih =>
      intro fuel acc h hf
      cases fuel with
      | zero => simp at hf
      | succ n =>
          simp only [List.cons_append, scanDigits,
            h c (List.mem_cons_self c tl), if_true, List.foldl_cons]
          exact ih n _ (fun x hx => h x (List.mem_cons_of_mem c hx))
            (by simpa using hf)

theorem scanNumber_append (maxD : Nat) (ds rest : List Char)
    (hne : ds ≠ []) (hd : ∀ c ∈ ds, isDigitCh c = true)
    (hlen : ds.length ≤ maxD)
    (hstop : ds.length = maxD ∨ headNotDigit rest) :
    scanNumber maxD (ds ++ rest) = some (valChars ds, rest) := by
  cases ds with
  | nil => exact absurd rfl hne
  | cons c tl =>
      have hc := hd c (List.mem_cons_self c tl)
      simp only [List.cons_append, scanNumber, hc, if_true]
      have htl : ∀ x ∈ tl, isDigitCh x = true :=
        fun x hx => hd x (List.mem_cons_of_mem c hx)
      rcases hstop with hstop | hstop
      · have : maxD - 1 = tl.length := by
          simp only [List.length_cons] at hstop; omega
        rw [this, scanDigits_exact tl rest _ htl]
        simp [valChars]
      · have hlen' : tl.length ≤ maxD - 1 := by
          simp only [List.length_cons] at hlen; omega
        rw [scanDigits_stop tl rest hstop (maxD - 1) _ htl hlen']
        simp [valChars]

theorem natChars_digits : ∀ n, ∀ c ∈ natChars n, isDigitCh c = true := by
  intro n c hc
  by_cases h : n = 0
  · subst h; simp [natChars] at hc; subst hc; decide
  · simp only [natChars, h, if_false, List.mem_map, List.mem_reverse] at hc
    obtain ⟨d, hd, rfl⟩ := hc
    rw [natDigits_eq] at hd
    have : d < 10 := Nat.digits_lt_base (by norm_num) hd
    interval_cases d <;> decide

theorem padChars_digits : ∀ w n, ∀ c ∈ padChars w n, isDigitCh c = true := by
  intro w n c hc
  simp only [padChars, List.mem_append, List.mem_replicate] at hc
  rcases hc with ⟨-, rfl⟩ | hc
  · decide
  · exact natChars_digits n c hc

theorem foldr_horner (L : List Nat) :
    L.foldr (fun d a => a * 10 + d) 0 = Nat.ofDigits 10 L := by
  induction L with
  | nil => simp [Nat.ofDigits]
  | cons d tl ih => simp [Nat.ofDigits_cons, ih]; ring

theorem valChars_natChars (n : Nat) : valChars (natChars n) = n := by
  by_cases h : n = 0
  · subst h; decide
  · simp only [natChars, h, if_false, valChars]
    rw [natDigits_eq, List.foldl_map, List.foldl_reverse]
    have hcong : (Nat.digits 10 n).foldr
        (fun x y => y * 10 + digitVal (Nat.digitChar x)) 0 =
        (Nat.digits 10 n).foldr (fun d a => a * 10 + d) 0 := by
      apply List.foldr_ext
      intro d hd a
      have : d < 10 := Nat.digits_lt_base (by norm_num) hd
      congr 1
      interval_cases d <;> decide
    rw [hcong, foldr_horner, Nat.ofDigits_digits]

theorem valChars_padChars (w n : Nat) : valChars (padChars w n) = n := by
  simp only [padChars, valChars, List.foldl_append]
  have hz : ∀ k, (List.replicate k '0').foldl (fun a c => a * 10 + digitVal c) 0 = 0 := by
    intro k; induction k with
    | zero => rfl
    | succ m ih => simpa [List.replicate_succ, digitVal] using ih
  rw [hz]
  exact valChars_natChars n

theorem natChars_ne_nil (n : Nat) : natChars n ≠ [] := by
  by_cases h : n = 0
  · subst h; simp [natChars]
  · simp only [natChars, h, if_false, ne_eq, List.map_eq_nil_iff, List.reverse_eq_nil_iff]
    rw [natDigits_eq]
    exact Nat.digits_ne_nil_iff_ne_zero.mpr h

theorem natChars_length_le (n w : Nat) (hw : 0 < w) (h : n < 10 ^ w) :
    (natChars n).length ≤ w := by
  by_cases h0 : n = 0
  · subst h0; simp [natChars]; omega
  · simp only [natChars, h0, if_false, List.length_map, List.length_reverse]
    rw [natDigits_eq, Nat.digits_len 10 n (by norm_num) h0]
    have := Nat.log_lt_of_lt_pow h0 h
    omega

theorem padChars_length (w n : Nat) (hw : 0 < w) (h : n < 10 ^ w) :
    (padChars w n).length = w := by
  have hle := natChars_length_le n w hw h
  by_cases h0 : n = 0
  · subst h0
    simp only [padChars, natChars, List.length_append, List.length_replicate]
    simp
    omega
  · simp only [padChars, h0, if_false, List.length_append, List.length_replicate]
    simp only [natChars, h0, if_false, List.length_map, List.length_reverse] at hle ⊢
    rw [natDigits_eq] at hle ⊢
    omega

theorem padChars_ne_nil (w n : Nat) : padChars w n ≠ [] := by
  intro h
  have h2 := congrArg List.length h
  simp only [padChars, List.length_append, List.length_nil] at h2
  have h3 := natChars_ne_nil n
  have h4 : 0 < (natChars n).length := List.length_pos.mpr h3
  omega

/-! ## ASCII helpers and whitespace

chrono's `Item::Space` and the leading trim before numeric/offset items use
`str::trim_start` (`char::is_whitespace`); only ASCII whitespace occurs in
the formats at hand. Name matching is ASCII-case-insensitive
(`u8::to_ascii_lowercase`). -/

def asciiLower (c : Char) : Char :=
  if 'A' ≤ c && c ≤ 'Z' then Char.ofNat (c.toNat + 32) else c

def isWsCh (c : Char) : Bool :=
  c.toNat = 32 || c.toNat = 9 || c.toNat = 10 || c.toNat = 13

def trimWs : List Char → List Char
  | [] => []
  | c :: rest => if isWsCh c then trimWs rest else c :: rest

theorem trimWs_not_ws (c : Char) (rest : List Char) (h : isWsCh c = false) :
    trimWs (c :: rest) = c :: rest := by
  simp [trimWs, h]

theorem trimWs_space (rest : List Char) : trimWs (' ' :: rest) = trimWs rest := by
  simp [trimWs, isWsCh]

theorem digit_not_ws (c : Char) (h : isDigitCh c = true) : isWsCh c = false := by
  simp only [isDigitCh, Bool.and_eq_true, decide_eq_true_eq] at h
  simp only [isWsCh, Bool.or_eq_false_iff, decide_eq_false_iff_not]
  omega

/-! ## Weekdays and month names -/

inductive Weekday where
  | mon | tue | wed | thu | fri | sat | sun
deriving DecidableEq, Repr

/-- Short weekday name, as chrono's `%a` formats it. -/
def weekdayChars : Weekday → List Char
  | .mon => ['M', 'o', 'n']
  | .tue => ['T', 'u', 'e']
  | .wed => ['W', 'e', 'd']
  | .thu => ['T', 'h', 'u']
  | .fri => ['F', 'r', 'i']
  | .sat => ['S', 'a', 't']
  | .sun => ['S', 'u', 'n']

/-- Remainder of the long weekday name (lowercase), as in chrono's
`scan::short_or_long_weekday` suffix table. -/
def weekdayLongTail : Weekday → List Char
  | .mon => ['d', 'a', 'y']
  | .tue => ['s', 'd', 'a', 'y']
  | .wed => ['n', 'e', 's', 'd', 'a', 'y']
  | .thu => ['r', 's', 'd', 'a', 'y']
  | .fri => ['d', 'a', 'y']
  | .sat => ['u', 'r', 'd', 'a', 'y']
  | .sun => ['d', 'a', 'y']

/-- chrono `scan::short_weekday`: the first three characters, lowercased,
must match one of the abbreviated names. -/
def weekdayOfAbbrev (a b c : Char) : Option Weekday :=
  if a = 'm' && b = 'o' && c = 'n' then some .mon
  else if a = 't' && b = 'u' && c = 'e' then some .tue
  else if a = 'w' && b = 'e' && c = 'd' then some .wed
  else if a = 't' && b = 'h' && c = 'u' then some .thu
  else if a = 'f' && b = 'r' && c = 'i' then some .fri
  else if a = 's' && b = 'a' && c = 't' then some .sat
  else if a = 's' && b = 'u' && c = 'n' then some .sun
  else none

/-- Case-insensitive match of a lowercase pattern against a prefix of the
input (chrono's `equals` on a byte window). -/
def ciMatches : List Char → List Char → Bool
  | [], _ => true
  | _ :: _, [] => false
  | p :: ps, c :: cs => asciiLower c = p && ciMatches ps cs

/-- chrono `scan::short_or_long_weekday`: match the short name, then
consume the long-name suffix when it follows. -/
def parseWeekdayName (s : List Char) : Option (Weekday × List Char) :=
  match s with
  | a :: b :: c :: rest =>
      match weekdayOfAbbrev (asciiLower a) (asciiLower b) (asciiLower c) with
      | some w =>
          if ciMatches (weekdayLongTail w) rest then
            some (w, rest.drop (weekdayLongTail w).length)
          else some (w, rest)
      | none => none
  | _ => none

/-- Short month name, as chrono's `%b` formats it (month numbered 1-12). -/
def monthChars : Nat → List Char
  | 1 => ['J', 'a', 'n']
  | 2 => ['F', 'e', 'b']
  | 3 => ['M', 'a', 'r']
  | 4 => ['A', 'p', 'r']
  | 5 => ['M', 'a', 'y']
  | 6 => ['J', 'u', 'n']
  | 7 => ['J', 'u', 'l']
  | 8 => ['A', 'u', 'g']
  | 9 => ['S', 'e', 'p']
  | 10 => ['O', 'c', 't']
  | 11 => ['N', 'o', 'v']
  | 12 => ['D', 'e', 'c']
  | _ => []

/-- Remainder of the long month name (lowercase), chrono's suffix table. -/
def monthLongTail : Nat → List Char
  | 1 => ['u', 'a', 'r', 'y']
  | 2 => ['r', 'u', 'a', 'r', 'y']
  | 3 => ['c', 'h']
  | 4 => ['i', 'l']
  | 5 => []
  | 6 => ['e']
  | 7 => ['y']
  | 8 => ['u', 's', 't']
  | 9 => ['t', 'e', 'm', 'b', 'e', 'r']
  | 10 => ['o', 'b', 'e', 'r']
  | 11 => ['e', 'm', 'b', 'e', 'r']
  | 12 => ['e', 'm', 'b', 'e', 'r']
  | _ => []

/-- chrono `scan::short_month0`, 1-based result. -/
def monthOfAbbrev (a b c : Char) : Option Nat :=
  if a = 'j' && b = 'a' && c = 'n' then some 1
  else if a = 'f' && b = 'e' && c = 'b' then some 2
  else if a = 'm' && b = 'a' && c = 'r' then some 3
  else if a = 'a' && b = 'p' && c = 'r' then some 4
  else if a = 'm' && b = 'a' && c = 'y' then some 5
  else if a = 'j' && b = 'u' && c = 'n' then some 6
  else if a = 'j' && b = 'u' && c = 'l' then some 7
  else if a = 'a' && b = 'u' && c = 'g' then some 8
  else if a = 's' && b = 'e' && c = 'p' then some 9
  else if a = 'o' && b = 'c' && c = 't' then some 10
  else if a = 'n' && b = 'o' && c = 'v' then some 11
  else if a = 'd' && b = 'e' && c = 'c' then some 12
  else none

/-- chrono `scan::short_or_long_month0` (1-based here). -/
def parseMonthName (s : List Char) : Option (Nat × List Char) :=
  match s with
  | a :: b :: c :: rest =>
      match monthOfAbbrev (asciiLower a) (asciiLower b) (asciiLower c) with
      | some m =>
          if ciMatches (monthLongTail m) rest then
            some (m, rest.drop (monthLongTail m).length)
          else some (m, rest)
      | none => none
  | _ => none

/-! ## Proleptic Gregorian calendar

`daysFromCivil`/`civilFromDays` convert between a civil date and the count
of days since 1970-01-01; they realize the same function as chrono's
`NaiveDate` ordinal/flags representation. Note that `Int./` and `Int.%`
are Euclidean in Lean, which is floor division for the positive divisors
used here. -/

def daysFromCivil (y : Int) (m d : Nat) : Int :=
  let y' : Int := if m ≤ 2 then y - 1 else y
  let era : Int := y' / 400
  let yoe : Int := y' - era * 400
  let mp : Nat := (m + 9) % 12
  let doy : Int := ((153 * mp + 2) / 5 + d - 1 : Nat)
  let doe : Int := yoe * 365 + yoe / 4 - yoe / 100 + doy
  era * 146097 + doe - 719468

def civilFromDays (z : Int) : Int × Nat × Nat :=
  let z' : Int := z + 719468
  let era : Int := z' / 146097
  let doe : Nat := (z' - era * 146097).toNat
  let yoe : Nat := (doe - doe / 1460 + doe / 36524 - doe / 146096) / 365
  let y : Int := (yoe : Int) + era * 400
  let doy : Nat := doe - (365 * yoe + yoe / 4 - yoe / 100)
  let mp : Nat := (5 * doy + 2) / 153
  let d : Nat := doy - (153 * mp + 2) / 5 + 1
  let m : Nat := if mp < 10 then mp + 3 else mp - 9
  (if m ≤ 2 then y + 1 else y, m, d)

/-- Weekday of a civil date (1970-01-01 is a Thursday). -/
def weekdayOf (y : Int) (m d : Nat) : Weekday :=
  match ((daysFromCivil y m d + 3) % 7).toNat with
  | 0 => .mon
  | 1 => .tue
  | 2 => .wed
  | 3 => .thu
  | 4 => .fri
  | 5 => .sat
  | _ => .sun

def isLeapYear (y : Int) : Bool :=
  (y % 4 == 0 && y % 100 != 0) || y % 400 == 0

def daysInMonth (y : Int) (m : Nat) : Nat :=
  if m = 2 then (if isLeapYear y then 29 else 28)
  else if m = 4 ∨ m = 6 ∨ m = 9 ∨ m = 11 then 30
  else 31

/-! ## The `rfc2822_serde` date codec

`src/inbound.rs` stores the `Date` field as `chrono::DateTime<Utc>` and
(de)serializes it with the fixed format string
`FORMAT = "%a, %-d %b %Y %H:%M:%S %:z"`.

A `DateTime<Utc>` is represented here by its civil components in UTC
(chrono's `NaiveDate` + `NaiveTime` + nanoseconds), which is the data the
formatter reads and the parser produces. A leap second is represented, as
in chrono, by `second = 59` together with `nano ≥ 1_000_000_000`. -/

structure DateTimeUtc where
  year : Int
  month : Nat
  day : Nat
  hour : Nat
  minute : Nat
  second : Nat
  nano : Nat
deriving DecidableEq, Repr

/-- The invariants chrono's constructors enforce on a `DateTime<Utc>`:
a real civil date within the `NaiveDate` year range and an in-range time
(leap seconds carried in `nano`). -/
def ValidDateTime (t : DateTimeUtc) : Prop :=
  1 ≤ t.month ∧ t.month ≤ 12 ∧ 1 ≤ t.day ∧ t.day ≤ daysInMonth t.year t.month ∧
  t.hour < 24 ∧ t.minute < 60 ∧ t.second < 60 ∧ t.nano < 2000000000 ∧
  -262144 ≤ t.year ∧ t.year ≤ 262143

instance (t : DateTimeUtc) : Decidable (ValidDateTime t) := by
  unfold ValidDateTime; infer_instance

/-- Models `%Y` formatting: zero-padded to four digits, with an explicit sign
when the year is negative or at least 10000. -/
def fmtYear (y : Int) : List Char :=
  if y < 0 then '-' :: padChars 4 y.natAbs
  else if y < 10000 then padChars 4 y.toNat
  else '+' :: natChars y.toNat

/-- Formatting `%S` displays 60 during a leap second. -/
def fmtSecondChars (t : DateTimeUtc) : List Char :=
  padChars 2 (if 1000000000 ≤ t.nano then 60 else t.second)

/-- Models `rfc2822_serde::serialize` at the character level:
`v.format(FORMAT)` for a UTC value; `%:z` therefore always renders the
offset `+00:00`. -/
def fmtInboundDateChars (t : DateTimeUtc) : List Char :=
  weekdayChars (weekdayOf t.year t.month t.day) ++
    ',' :: ' ' :: (natChars t.day ++
      ' ' :: (monthChars t.month ++
        ' ' :: (fmtYear t.year ++
          ' ' :: (padChars 2 t.hour ++
            ':' :: (padChars 2 t.minute ++
              ':' :: (fmtSecondChars t ++
                [' ', '+', '0', '0', ':', '0', '0']))))))

/-- Models `rfc2822_serde::serialize`: `v.format(FORMAT).to_string()`. -/
def fmtInboundDate (t : DateTimeUtc) : String :=
  String.mk (fmtInboundDateChars t)

/-- Models `%Y` parsing: with an explicit sign chrono scans unboundedly many
digits, without one at most four. -/
def scanYear (s : List Char) : Option (Int × List Char) :=
  match s with
  | c :: rest =>
      if c = '-' then (scanNumberAll rest).map (fun p => (-(p.1 : Int), p.2))
      else if c = '+' then (scanNumberAll rest).map (fun p => ((p.1 : Int), p.2))
      else (scanNumber 4 (c :: rest)).map (fun p => ((p.1 : Int), p.2))
  | [] => none

/-- chrono `scan::colon_or_space`: drop any mix of colons and whitespace. -/
def dropColonWs : List Char → List Char
  | [] => []
  | c :: rest => if c = ':' || isWsCh c then dropColonWs rest else c :: rest

/-- chrono `scan::timezone_offset` as used by `%:z`: a mandatory sign,
two hour digits, `colon_or_space`, two minute digits. -/
def scanOffset (s : List Char) : Option (Int × List Char) :=
  match s with
  | c :: h1 :: h2 :: rest =>
      if c = '+' || c = '-' then
        if isDigitCh h1 && isDigitCh h2 then
          match dropColonWs rest with
          | m1 :: m2 :: rest2 =>
              if isDigitCh m1 && isDigitCh m2 then
                let hh := digitVal h1 * 10 + digitVal h2
                let mm := digitVal m1 * 10 + digitVal m2
                let off : Int := (hh * 3600 + mm * 60 : Nat)
                some (if c = '-' then -off else off, rest2)
              else none
          | _ => none
        else none
      else none
  | _ => none

/-- Total seconds of the day-time part. -/
def timeSecs (t : DateTimeUtc) : Int :=
  (t.hour * 3600 + t.minute * 60 + t.second : Nat)

/-- Convert the parsed local civil time to UTC by subtracting the offset
(`with_timezone(&Utc)` on the parsed `DateTime<FixedOffset>`).
Subtracting a zero offset leaves the civil components unchanged; a
non-zero offset goes through epoch-seconds arithmetic, erroring when the
result leaves the `NaiveDate` year range. -/
def applyOffset (t : DateTimeUtc) (offset : Int) : Option DateTimeUtc :=
  if offset = 0 then some t
  else
    let total : Int := daysFromCivil t.year t.month t.day * 86400 + timeSecs t - offset
    let days : Int := total / 86400
    let sod : Nat := (total - days * 86400).toNat
    match civilFromDays days with
    | (y, m, d) =>
        if -262144 ≤ y ∧ y ≤ 262143 then
          some ⟨y, m, d, sod / 3600, sod % 3600 / 60, sod % 60, t.nano⟩
        else none

/-- Models `Parsed::to_datetime` without the offset part: validate the civil
date (`NaiveDate::from_ymd_opt`), check the parsed weekday against the
date's weekday, validate the time (`second = 60` becoming a leap
second). -/
def buildDate (y : Int) (m d : Nat) (wd : Weekday) (hh mi ss : Nat) :
    Option DateTimeUtc :=
  if 1 ≤ m ∧ m ≤ 12 ∧ 1 ≤ d ∧ d ≤ daysInMonth y m ∧ -262144 ≤ y ∧ y ≤ 262143 then
    if wd = weekdayOf y m d then
      if hh < 24 ∧ mi < 60 ∧ ss ≤ 60 then
        if ss = 60 then some ⟨y, m, d, hh, mi, 59, 1000000000⟩
        else some ⟨y, m, d, hh, mi, ss, 0⟩
      else none
    else none
  else none

/-- Models `Item::Literal`: the next character must match exactly. -/
def expectChar (c : Char) : List Char → Option (List Char)
  | [] => none
  | x :: rest => if x = c then some rest else none

theorem expectChar_cons (c x : Char) (rest : List Char) :
    expectChar c (x :: rest) = if x = c then some rest else none := rfl

/-- Models `rfc2822_serde::deserialize`:
`DateTime::parse_from_str(v, FORMAT).map(|x| x.with_timezone(&Utc))`.
The items of `FORMAT` are matched in sequence (whitespace items and the
leading trim of numeric/offset items are `trim_start`), the whole string
must be consumed, and the collected fields go through
`Parsed::to_datetime`. -/
def parseDateChars (s : List Char) : Option DateTimeUtc :=
  (parseWeekdayName s).bind fun p1 =>
  (expectChar ',' p1.2).bind fun s2 =>
  (scanNumber 2 (trimWs s2)).bind fun p2 =>
  (parseMonthName (trimWs p2.2)).bind fun p3 =>
  (scanYear (trimWs p3.2)).bind fun p4 =>
  (scanNumber 2 (trimWs p4.2)).bind fun p5 =>
  (expectChar ':' p5.2).bind fun s7 =>
  (scanNumber 2 (trimWs s7)).bind fun p6 =>
  (expectChar ':' p6.2).bind fun s9 =>
  (scanNumber 2 (trimWs s9)).bind fun p7 =>
  (scanOffset (trimWs p7.2)).bind fun p8 =>
  if p8.2 = [] then
    if -86400 < p8.1 ∧ p8.1 < 86400 then
      (buildDate p4.1 p3.1 p2.1 p1.1 p5.1 p6.1 p7.1).bind fun t =>
        applyOffset t p8.1
    else none
  else none

def parseInboundDate (s : String) : Option DateTimeUtc :=
  parseDateChars s.data

/-! ### The date codec round-trips UTC whole-second values -/

theorem parseWeekdayName_fmt (w : Weekday) (rest : List Char) :
    parseWeekdayName (weekdayChars w ++ ',' :: rest) = some (w, ',' :: rest) := by
  cases w <;> rfl

theorem parseMonthName_fmt (m : Nat) (h1 : 1 ≤ m) (h2 : m ≤ 12) (rest : List Char) :
    parseMonthName (monthChars m ++ ' ' :: rest) = some (m, ' ' :: rest) := by
  interval_cases m <;> rfl

theorem trimWs_append_digits (ds rest : List Char) (hne : ds ≠ [])
    (hd : ∀ c ∈ ds, isDigitCh c = true) :
    trimWs (ds ++ rest) = ds ++ rest := by
  cases ds with
  | nil => exact absurd rfl hne
  | cons c tl =>
      simp only [List.cons_append]
      exact trimWs_not_ws c _ (digit_not_ws c (hd c (List.mem_cons_self c tl)))

theorem scanNumberAll_append (ds rest : List Char) (hne : ds ≠ [])
    (hd : ∀ c ∈ ds, isDigitCh c = true) (hr : headNotDigit rest) :
    scanNumberAll (ds ++ rest) = some (valChars ds, rest) := by
  unfold scanNumberAll
  exact scanNumber_append _ ds rest hne hd (by simp) (Or.inr hr)

theorem digit_ne_low (c d : Char) (h : isDigitCh c = true) (hd : d.toNat < 48) :
    c ≠ d := by
  intro he
  subst he
  simp only [isDigitCh, Bool.and_eq_true, decide_eq_true_eq] at h
  omega

theorem scanYear_cons (c : Char) (s : List Char) :
    scanYear (c :: s) =
      if c = '-' then (scanNumberAll s).map (fun p => (-(p.1 : Int), p.2))
      else if c = '+' then (scanNumberAll s).map (fun p => ((p.1 : Int), p.2))
      else (scanNumber 4 (c :: s)).map (fun p => ((p.1 : Int), p.2)) := rfl

theorem scanYear_fmt (y : Int) (rest : List Char) (hr : headNotDigit rest) :
    scanYear (fmtYear y ++ rest) = some (y, rest) := by
  by_cases hneg : y < 0
  · have hfm : fmtYear y = '-' :: padChars 4 y.natAbs := by
      unfold fmtYear; rw [if_pos hneg]
    rw [hfm, List.cons_append, scanYear_cons, if_pos rfl,
      scanNumberAll_append _ _ (padChars_ne_nil 4 y.natAbs)
        (padChars_digits 4 y.natAbs) hr]
    simp only [Option.map_some', valChars_padChars]
    rw [show -((y.natAbs : Int)) = y from by omega]
  · by_cases hsmall : y < 10000
    · have hfm : fmtYear y = padChars 4 y.toNat := by
        unfold fmtYear; rw [if_neg hneg, if_pos hsmall]
      rw [hfm]
      obtain ⟨c, tl, hct⟩ : ∃ c tl, padChars 4 y.toNat = c :: tl := by
        cases h : padChars 4 y.toNat with
        | nil => exact absurd h (padChars_ne_nil 4 y.toNat)
        | cons c tl => exact ⟨c, tl, rfl⟩
      have hcd : isDigitCh c = true := by
        apply padChars_digits 4 y.toNat
        rw [hct]; exact List.mem_cons_self c tl
      rw [hct, List.cons_append, scanYear_cons,
        if_neg (digit_ne_low c '-' hcd (by decide)),
        if_neg (digit_ne_low c '+' hcd (by decide)),
        ← List.cons_append, ← hct,
        scanNumber_append 4 (padChars 4 y.toNat) rest (padChars_ne_nil 4 y.toNat)
          (padChars_digits 4 y.toNat)
          (le_of_eq (padChars_length 4 y.toNat (by norm_num) (by omega)))
          (Or.inl (padChars_length 4 y.toNat (by norm_num) (by omega)))]
      simp only [Option.map_some', valChars_padChars]
      rw [show ((y.toNat : Int)) = y from by omega]
    · have hfm : fmtYear y = '+' :: natChars y.toNat := by
        unfold fmtYear; rw [if_neg hneg, if_neg hsmall]
      rw [hfm, List.cons_append, scanYear_cons, if_neg (by decide), if_pos rfl,
        scanNumberAll_append _ _ (natChars_ne_nil y.toNat)
          (natChars_digits y.toNat) hr]
      simp only [Option.map_some', valChars_natChars]
      rw [show ((y.toNat : Int)) = y from by omega]

theorem scanNumber2_pad (n : Nat) (rest : List Char) (h : n < 100) :
    scanNumber 2 (padChars 2 n ++ rest) = some (n, rest) := by
  rw [scanNumber_append 2 (padChars 2 n) rest (padChars_ne_nil 2 n)
    (padChars_digits 2 n)
    (le_of_eq (padChars_length 2 n (by norm_num) (by omega)))
    (Or.inl (padChars_length 2 n (by norm_num) (by omega))),
    valChars_padChars]

theorem scanNumber2_nat (n : Nat) (rest : List Char) (h : n < 100)
    (hr : headNotDigit rest) :
    scanNumber 2 (natChars n ++ rest) = some (n, rest) := by
  rw [scanNumber_append 2 (natChars n) rest (natChars_ne_nil n)
    (natChars_digits n) (natChars_length_le n 2 (by norm_num) (by omega))
    (Or.inr hr), valChars_natChars]

theorem applyOffset_zero (t : DateTimeUtc) : applyOffset t 0 = some t := by
  simp [applyOffset]

theorem buildDate_valid (t : DateTimeUtc) (h : ValidDateTime t) :
    buildDate t.year t.month t.day (weekdayOf t.year t.month t.day)
      t.hour t.minute t.second =
      some ⟨t.year, t.month, t.day, t.hour, t.minute, t.second, 0⟩ := by
  obtain ⟨h1, h2, h3, h4, h5, h6, h7, h8, h9, h10⟩ := h
  rw [buildDate, if_pos ⟨h1, h2, h3, h4, h9, h10⟩, if_pos rfl,
    if_pos ⟨h5, h6, by omega⟩, if_neg (by omega)]

theorem headNotDigit_cons (c : Char) (X : List Char) (h : isDigitCh c = false) :
    headNotDigit (c :: X) := h

theorem trimWs_monthChars (m : Nat) (h1 : 1 ≤ m) (h2 : m ≤ 12) (rest : List Char) :
    trimWs (monthChars m ++ rest) = monthChars m ++ rest := by
  interval_cases m <;> exact trimWs_not_ws _ _ (by decide)

theorem trimWs_fmtYear (y : Int) (rest : List Char) :
    trimWs (fmtYear y ++ rest) = fmtYear y ++ rest := by
  unfold fmtYear
  split
  · rw [List.cons_append]
    exact trimWs_not_ws _ _ (by decide)
  · split
    · exact trimWs_append_digits _ _ (padChars_ne_nil 4 _) (padChars_digits 4 _)
    · rw [List.cons_append]
      exact trimWs_not_ws _ _ (by decide)

/-- The serialization of a valid whole-second UTC instant parses back to
the same instant: the core of the round-trip law for the `Date` field. -/
theorem parseInboundDate_fmt (t : DateTimeUtc) (h : ValidDateTime t)
    (hn : t.nano = 0) :
    parseInboundDate (fmtInboundDate t) = some t := by
  obtain ⟨h1, h2, h3, h4, h5, h6, h7, h8, h9, h10⟩ := h
  have hday : t.day < 100 := by
    have : daysInMonth t.year t.month ≤ 31 := by
      unfold daysInMonth
      split
      · split <;> omega
      · split <;> omega
    omega
  show parseDateChars (fmtInboundDateChars t) = some t
  unfold parseDateChars fmtInboundDateChars
  rw [parseWeekdayName_fmt]
  simp only [Option.some_bind]
  simp only [expectChar_cons, if_true, Option.some_bind]
  rw [trimWs_space,
    trimWs_append_digits _ _ (natChars_ne_nil t.day) (natChars_digits t.day),
    scanNumber2_nat t.day _ hday (headNotDigit_cons ' ' _ (by decide))]
  simp only [Option.some_bind]
  rw [trimWs_space, trimWs_monthChars t.month h1 h2, parseMonthName_fmt t.month h1 h2]
  simp only [Option.some_bind]
  rw [trimWs_space, trimWs_fmtYear,
    scanYear_fmt t.year _ (headNotDigit_cons ' ' _ (by decide))]
  simp only [Option.some_bind]
  rw [trimWs_space,
    trimWs_append_digits _ _ (padChars_ne_nil 2 t.hour) (padChars_digits 2 t.hour),
    scanNumber2_pad t.hour _ (by omega)]
  simp only [Option.some_bind]
  simp only [expectChar_cons, if_true, Option.some_bind]
  rw [trimWs_append_digits _ _ (padChars_ne_nil 2 t.minute) (padChars_digits 2 t.minute),
    scanNumber2_pad t.minute _ (by omega)]
  simp only [Option.some_bind]
  simp only [expectChar_cons, if_true, Option.some_bind]
  have hsec : fmtSecondChars t = padChars 2 t.second := by
    unfold fmtSecondChars
    rw [if_neg (by omega)]
  rw [hsec,
    trimWs_append_digits _ _ (padChars_ne_nil 2 t.second) (padChars_digits 2 t.second),
    scanNumber2_pad t.second _ (by omega)]
  simp only [Option.some_bind]
  rw [show trimWs [' ', '+', '0', '0', ':', '0', '0'] = ['+', '0', '0', ':', '0', '0'] from rfl,
    show scanOffset ['+', '0', '0', ':', '0', '0'] = some (0, []) from rfl]
  simp only [Option.some_bind]
  rw [if_true, if_pos (show -86400 < (0 : Int) ∧ (0 : Int) < 86400 from by omega)]
  rw [buildDate_valid t ⟨h1, h2, h3, h4, h5, h6, h7, h8, h9, h10⟩]
  simp only [Option.some_bind]
  rw [applyOffset_zero, ← hn]

/-! ## The `base64_serde` binary codec

`src/inbound.rs` encodes `Attachment.content` with `base64::encode` and
decodes with `base64::decode` (the standard alphabet, padded output;
decoding also accepts an unpadded final chunk and does not check the
trailing bits, as the pre-0.20 `base64` crate behaves). Bytes are `Nat`s
below 256. -/

def b64Char (n : Nat) : Char :=
  if n < 26 then Char.ofNat (65 + n)
  else if n < 52 then Char.ofNat (97 + (n - 26))
  else if n < 62 then Char.ofNat (48 + (n - 52))
  else if n = 62 then '+' else '/'

def b64Val (c : Char) : Option Nat :=
  if 65 ≤ c.toNat ∧ c.toNat ≤ 90 then some (c.toNat - 65)
  else if 97 ≤ c.toNat ∧ c.toNat ≤ 122 then some (c.toNat - 71)
  else if 48 ≤ c.toNat ∧ c.toNat ≤ 57 then some (c.toNat + 4)
  else if c = '+' then some 62
  else if c = '/' then some 63
  else none

/-- Models `base64::encode`: 3 input bytes become 4 alphabet characters; a final
chunk of 1 or 2 bytes is padded with `=`. -/
def encB64 : List Nat → List Char
  | [] => []
  | [a] => [b64Char (a / 4), b64Char (a % 4 * 16), '=', '=']
  | [a, b] => [b64Char (a / 4), b64Char (a % 4 * 16 + b / 16), b64Char (b % 16 * 4), '=']
  | a :: b :: c :: rest =>
      b64Char (a / 4) :: b64Char (a % 4 * 16 + b / 16) ::
        b64Char (b % 16 * 4 + c / 64) :: b64Char (c % 64) :: encB64 rest

/-- Models `base64::decode`: 4 characters become 3 bytes; `=` padding (or an
unpadded 2- or 3-character tail) is only legal at the end. -/
def decB64 : List Char → Option (List Nat)
  | [] => some []
  | [c1, c2] =>
      (b64Val c1).bind fun s1 => (b64Val c2).bind fun s2 =>
        some [s1 * 4 + s2 / 16]
  | [c1, c2, c3] =>
      (b64Val c1).bind fun s1 => (b64Val c2).bind fun s2 =>
        (b64Val c3).bind fun s3 =>
          some [s1 * 4 + s2 / 16, s2 % 16 * 16 + s3 / 4]
  | c1 :: c2 :: c3 :: c4 :: rest =>
      if c3 = '=' then
        if c4 = '=' ∧ rest = [] then
          (b64Val c1).bind fun s1 => (b64Val c2).bind fun s2 =>
            some [s1 * 4 + s2 / 16]
        else none
      else if c4 = '=' then
        if rest = [] then
          (b64Val c1).bind fun s1 => (b64Val c2).bind fun s2 =>
            (b64Val c3).bind fun s3 =>
              some [s1 * 4 + s2 / 16, s2 % 16 * 16 + s3 / 4]
        else none
      else
        (b64Val c1).bind fun s1 => (b64Val c2).bind fun s2 =>
          (b64Val c3).bind fun s3 => (b64Val c4).bind fun s4 =>
            (decB64 rest).map fun bs =>
              (s1 * 4 + s2 / 16) :: (s2 % 16 * 16 + s3 / 4) :: (s3 % 4 * 64 + s4) :: bs
  | _ => none

theorem b64Val_b64Char (s : Nat) (h : s < 64) : b64Val (b64Char s) = some s := by
  interval_cases s <;> rfl

theorem b64Char_ne_pad (s : Nat) (h : s < 64) : b64Char s ≠ '=' := by
  interval_cases s <;> decide

theorem decB64_four (q1 q2 q3 q4 : Char) (rest : List Char) :
    decB64 (q1 :: q2 :: q3 :: q4 :: rest) =
      if q3 = '=' then
        if q4 = '=' ∧ rest = [] then
          (b64Val q1).bind fun s1 => (b64Val q2).bind fun s2 =>
            some [s1 * 4 + s2 / 16]
        else none
      else if q4 = '=' then
        if rest = [] then
          (b64Val q1).bind fun s1 => (b64Val q2).bind fun s2 =>
            (b64Val q3).bind fun s3 =>
              some [s1 * 4 + s2 / 16, s2 % 16 * 16 + s3 / 4]
        else none
      else
        (b64Val q1).bind fun s1 => (b64Val q2).bind fun s2 =>
          (b64Val q3).bind fun s3 => (b64Val q4).bind fun s4 =>
            (decB64 rest).map fun bs =>
              (s1 * 4 + s2 / 16) :: (s2 % 16 * 16 + s3 / 4) ::
                (s3 % 4 * 64 + s4) :: bs := rfl

/-- Decoding inverts encoding on byte lists (property P5 of the spec). -/
theorem decB64_encB64 : ∀ (l : List Nat), (∀ b ∈ l, b < 256) →
    decB64 (encB64 l) = some l
  | [], _ => rfl
  | [a], h => by
      have ha : a < 256 := h a (by simp)
      show decB64 [b64Char (a / 4), b64Char (a % 4 * 16), '=', '='] = some [a]
      rw [decB64_four, if_pos rfl, if_pos ⟨rfl, rfl⟩,
        b64Val_b64Char _ (by omega), b64Val_b64Char _ (by omega)]
      simp only [Option.some_bind]
      rw [show a / 4 * 4 + a % 4 * 16 / 16 = a from by omega]
  | [a, b], h => by
      have ha : a < 256 := h a (by simp)
      have hb : b < 256 := h b (by simp)
      show decB64 [b64Char (a / 4), b64Char (a % 4 * 16 + b / 16),
          b64Char (b % 16 * 4), '='] = some [a, b]
      rw [decB64_four, if_neg (b64Char_ne_pad _ (by omega)), if_pos rfl, if_pos rfl,
        b64Val_b64Char _ (by omega), b64Val_b64Char _ (by omega),
        b64Val_b64Char _ (by omega)]
      simp only [Option.some_bind]
      rw [show a / 4 * 4 + (a % 4 * 16 + b / 16) / 16 = a from by omega,
        show (a % 4 * 16 + b / 16) % 16 * 16 + b % 16 * 4 / 4 = b from by omega]
  | [a, b, c], h => by
      have ha : a < 256 := h a (by simp)
      have hb : b < 256 := h b (by simp)
      have hc : c < 256 := h c (by simp)
      show decB64 [b64Char (a / 4), b64Char (a % 4 * 16 + b / 16),
          b64Char (b % 16 * 4 + c / 64), b64Char (c % 64)] = some [a, b, c]
      rw [decB64_four, if_neg (b64Char_ne_pad _ (by omega)),
        if_neg (b64Char_ne_pad _ (by omega)),
        b64Val_b64Char _ (by omega), b64Val_b64Char _ (by omega),
        b64Val_b64Char _ (by omega), b64Val_b64Char _ (by omega)]
      simp only [Option.some_bind]
      rw [show decB64 [] = some [] from rfl]
      simp only [Option.map_some']
      rw [show a / 4 * 4 + (a % 4 * 16 + b / 16) / 16 = a from by omega,
        show (a % 4 * 16 + b / 16) % 16 * 16 + (b % 16 * 4 + c / 64) / 4 = b from by omega,
        show (b % 16 * 4 + c / 64) % 4 * 64 + c % 64 = c from by omega]
  | a :: b :: c :: d :: rest, h => by
      have ha : a < 256 := h a (by simp)
      have hb : b < 256 := h b (by simp)
      have hc : c < 256 := h c (by simp)
      have ih := decB64_encB64 (d :: rest) (fun x hx => h x (by simp [hx]))
      show decB64 (b64Char (a / 4) :: b64Char (a % 4 * 16 + b / 16) ::
          b64Char (b % 16 * 4 + c / 64) :: b64Char (c % 64) ::
          encB64 (d :: rest)) = some (a :: b :: c :: d :: rest)
      rw [decB64_four, if_neg (b64Char_ne_pad _ (by omega)),
        if_neg (b64Char_ne_pad _ (by omega)),
        b64Val_b64Char _ (by omega), b64Val_b64Char _ (by omega),
        b64Val_b64Char _ (by omega), b64Val_b64Char _ (by omega)]
      simp only [Option.some_bind]
      rw [ih]
      simp only [Option.map_some']
      rw [show a / 4 * 4 + (a % 4 * 16 + b / 16) / 16 = a from by omega,
        show (a % 4 * 16 + b / 16) % 16 * 16 + (b % 16 * 4 + c / 64) / 4 = b from by omega,
        show (b % 16 * 4 + c / 64) % 4 * 64 + c % 64 = c from by omega]

/-! ## The inbound webhook model (`src/inbound.rs`)

All structs derive serde `Serialize`/`Deserialize` with
`rename_all = "PascalCase"`; `message_id` carries an explicit
`rename = "MessageID"`. Serialization emits the fields in declaration
order. The derived deserializer consumes a JSON map entry by entry:
a known key fills its slot (erroring on a duplicate), unknown keys are
ignored, and at the end every slot must be filled. `Bytes` content is a
byte list. -/

structure Participant where
  email : String
  name : String
  mailboxHash : String
deriving DecidableEq, Repr

structure Header where
  name : String
  value : String
deriving DecidableEq, Repr

structure Attachment where
  name : String
  content : List Nat
  contentType : String
  contentLength : Int
deriving DecidableEq, Repr

structure InboundEmail where
  fromName : String
  messageStream : String
  fromFull : Participant
  toFull : List Participant
  ccFull : List Participant
  bccFull : List Participant
  originalRecipient : String
  subject : String
  messageId : String
  replyTo : String
  mailboxHash : String
  date : DateTimeUtc
  textBody : String
  htmlBody : String
  strippedTextReply : String
  tag : String
  headers : List Header
  attachments : List Attachment
deriving DecidableEq, Repr

def serParticipant (p : Participant) : Json :=
  .obj [("Email", .str p.email), ("Name", .str p.name),
    ("MailboxHash", .str p.mailboxHash)]

def serHeader (h : Header) : Json :=
  .obj [("Name", .str h.name), ("Value", .str h.value)]

def serAttachment (a : Attachment) : Json :=
  .obj [("Name", .str a.name),
    ("Content", .str (String.mk (encB64 a.content))),
    ("ContentType", .str a.contentType),
    ("ContentLength", .num a.contentLength)]

def serInboundEmail (e : InboundEmail) : Json :=
  .obj [("FromName", .str e.fromName),
    ("MessageStream", .str e.messageStream),
    ("FromFull", serParticipant e.fromFull),
    ("ToFull", .arr (e.toFull.map serParticipant)),
    ("CcFull", .arr (e.ccFull.map serParticipant)),
    ("BccFull", .arr (e.bccFull.map serParticipant)),
    ("OriginalRecipient", .str e.originalRecipient),
    ("Subject", .str e.subject),
    ("MessageID", .str e.messageId),
    ("ReplyTo", .str e.replyTo),
    ("MailboxHash", .str e.mailboxHash),
    ("Date", .str (fmtInboundDate e.date)),
    ("TextBody", .str e.textBody),
    ("HtmlBody", .str e.htmlBody),
    ("StrippedTextReply", .str e.strippedTextReply),
    ("Tag", .str e.tag),
    ("Headers", .arr (e.headers.map serHeader)),
    ("Attachments", .arr (e.attachments.map serAttachment))]

/-- serde `String` deserialization: only a JSON string. -/
def deserStr : Json → Option String
  | .str s => some s
  | _ => none

/-- The `rfc2822_serde` deserializer visits a string. -/
def deserDate : Json → Option DateTimeUtc
  | .str s => parseInboundDate s
  | _ => none

/-- The `base64_serde` deserializer visits a string and base64-decodes. -/
def deserBytes : Json → Option (List Nat)
  | .str s => decB64 s.data
  | _ => none

/-- serde `i32` deserialization: an integer in the `i32` range. -/
def deserI32 : Json → Option Int
  | .num n => if -2147483648 ≤ n ∧ n ≤ 2147483647 then some n else none
  | _ => none

/-- serde `Vec<T>` deserialization: every element must deserialize. -/
def deserAll (f : Json → Option α) : List Json → Option (List α)
  | [] => some []
  | j :: rest => (f j).bind fun a => (deserAll f rest).map fun as => a :: as

def deserList (f : Json → Option α) : Json → Option (List α)
  | .arr xs => deserAll f xs
  | _ => none

def deserParticipantFields : List (String × Json) →
    Option String → Option String → Option String → Option Participant
  | [], some e, some n, some m => some ⟨e, n, m⟩
  | [], _, _, _ => none
  | (k, v) :: rest, e, n, m =>
      if k = "Email" then
        match e with
        | some _ => none
        | none => (deserStr v).bind fun s => deserParticipantFields rest (some s) n m
      else if k = "Name" then
        match n with
        | some _ => none
        | none => (deserStr v).bind fun s => deserParticipantFields rest e (some s) m
      else if k = "MailboxHash" then
        match m with
        | some _ => none
        | none => (deserStr v).bind fun s => deserParticipantFields rest e n (some s)
      else deserParticipantFields rest e n m

def deserParticipant : Json → Option Participant
  | .obj fs => deserParticipantFields fs none none none
  | _ => none

def deserHeaderFields : List (String × Json) →
    Option String → Option String → Option Header
  | [], some n, some v => some ⟨n, v⟩
  | [], _, _ => none
  | (k, v) :: rest, n, va =>
      if k = "Name" then
        match n with
        | some _ => none
        | none => (deserStr v).bind fun s => deserHeaderFields rest (some s) va
      else if k = "Value" then
        match va with
        | some _ => none
        | none => (deserStr v).bind fun s => deserHeaderFields rest n (some s)
      else deserHeaderFields rest n va

def deserHeader : Json → Option Header
  | .obj fs => deserHeaderFields fs none none
  | _ => none

def deserAttachmentFields : List (String × Json) →
    Option String → Option (List Nat) → Option String → Option Int →
    Option Attachment
  | [], some n, some c, some ct, some cl => some ⟨n, c, ct, cl⟩
  | [], _, _, _, _ => none
  | (k, v) :: rest, n, c, ct, cl =>
      if k = "Name" then
        match n with
        | some _ => none
        | none => (deserStr v).bind fun s => deserAttachmentFields rest (some s) c ct cl
      else if k = "Content" then
        match c with
        | some _ => none
        | none => (deserBytes v).bind fun s => deserAttachmentFields rest n (some s) ct cl
      else if k = "ContentType" then
        match ct with
        | some _ => none
        | none => (deserStr v).bind fun s => deserAttachmentFields rest n c (some s) cl
      else if k = "ContentLength" then
        match cl with
        | some _ => none
        | none => (deserI32 v).bind fun s => deserAttachmentFields rest n c ct (some s)
      else deserAttachmentFields rest n c ct cl

def deserAttachment : Json → Option Attachment
  | .obj fs => deserAttachmentFields fs none none none none
  | _ => none

/-- The partially-filled field slots of the derived `InboundEmail`
deserializer. -/
structure InboundSlots where
  fromName : Option String := none
  messageStream : Option String := none
  fromFull : Option Participant := none
  toFull : Option (List Participant) := none
  ccFull : Option (List Participant) := none
  bccFull : Option (List Participant) := none
  originalRecipient : Option String := none
  subject : Option String := none
  messageId : Option String := none
  replyTo : Option String := none
  mailboxHash : Option String := none
  date : Option DateTimeUtc := none
  textBody : Option String := none
  htmlBody : Option String := none
  strippedTextReply : Option String := none
  tag : Option String := none
  headers : Option (List Header) := none
  attachments : Option (List Attachment) := none

/-- All slots filled: produce the value; otherwise a missing-field
error. -/
def finishInbound (st : InboundSlots) : Option InboundEmail :=
  match st with
  | ⟨some a1, some a2, some a3, some a4, some a5, some a6, some a7, some a8,
      some a9, some a10, some a11, some a12, some a13, some a14, some a15,
      some a16, some a17, some a18⟩ =>
      some ⟨a1, a2, a3, a4, a5, a6, a7, a8, a9, a10, a11, a12, a13, a14,
        a15, a16, a17, a18⟩
  | _ => none

def fillSlot (cur : Option α) (read : Option α)
    (k : Option α → Option InboundEmail) : Option InboundEmail :=
  match cur with
  | some _ => none
  | none => read.bind fun s => k (some s)

def deserInboundFields : List (String × Json) → InboundSlots →
    Option InboundEmail
  | [], st => finishInbound st
  | (k, v) :: rest, st =>
      if k = "FromName" then
        fillSlot st.fromName (deserStr v) fun s =>
          deserInboundFields rest { st with fromName := s }
      else if k = "MessageStream" then
        fillSlot st.messageStream (deserStr v) fun s =>
          deserInboundFields rest { st with messageStream := s }
      else if k = "FromFull" then
        fillSlot st.fromFull (deserParticipant v) fun s =>
          deserInboundFields rest { st with fromFull := s }
      else if k = "ToFull" then
        fillSlot st.toFull (deserList deserParticipant v) fun s =>
          deserInboundFields rest { st with toFull := s }
      else if k = "CcFull" then
        fillSlot st.ccFull (deserList deserParticipant v) fun s =>
          deserInboundFields rest { st with ccFull := s }
      else if k = "BccFull" then
        fillSlot st.bccFull (deserList deserParticipant v) fun s =>
          deserInboundFields rest { st with bccFull := s }
      else if k = "OriginalRecipient" then
        fillSlot st.originalRecipient (deserStr v) fun s =>
          deserInboundFields rest { st with originalRecipient := s }
      else if k = "Subject" then
        fillSlot st.subject (deserStr v) fun s =>
          deserInboundFields rest { st with subject := s }
      else if k = "MessageID" then
        fillSlot st.messageId (deserStr v) fun s =>
          deserInboundFields rest { st with messageId := s }
      else if k = "ReplyTo" then
        fillSlot st.replyTo (deserStr v) fun s =>
          deserInboundFields rest { st with replyTo := s }
      else if k = "MailboxHash" then
        fillSlot st.mailboxHash (deserStr v) fun s =>
          deserInboundFields rest { st with mailboxHash := s }
      else if k = "Date" then
        fillSlot st.date (deserDate v) fun s =>
          deserInboundFields rest { st with date := s }
      else if k = "TextBody" then
        fillSlot st.textBody (deserStr v) fun s =>
          deserInboundFields rest { st with textBody := s }
      else if k = "HtmlBody" then
        fillSlot st.htmlBody (deserStr v) fun s =>
          deserInboundFields rest { st with htmlBody := s }
      else if k = "StrippedTextReply" then
        fillSlot st.strippedTextReply (deserStr v) fun s =>
          deserInboundFields rest { st with strippedTextReply := s }
      else if k = "Tag" then
        fillSlot st.tag (deserStr v) fun s =>
          deserInboundFields rest { st with tag := s }
      else if k = "Headers" then
        fillSlot st.headers (deserList deserHeader v) fun s =>
          deserInboundFields rest { st with headers := s }
      else if k = "Attachments" then
        fillSlot st.attachments (deserList deserAttachment v) fun s =>
          deserInboundFields rest { st with attachments := s }
      else deserInboundFields rest st

/-- Models `serde_json::from_str::<InboundEmail>` on an already-lexed document:
the top level must be a JSON object. -/
def deserInboundEmail : Json → Option InboundEmail
  | .obj fs => deserInboundFields fs {}
  | _ => none

/-- The invariants the Rust types guarantee for an `InboundEmail` value:
a valid `DateTime<Utc>`, `u8` attachment bytes and `i32` content
lengths. -/
def ValidInboundEmail (e : InboundEmail) : Prop :=
  ValidDateTime e.date ∧
  ∀ a ∈ e.attachments, (∀ x ∈ a.content, x < 256) ∧
    -2147483648 ≤ a.contentLength ∧ a.contentLength ≤ 2147483647

instance (e : InboundEmail) : Decidable (ValidInboundEmail e) := by
  unfold ValidInboundEmail; infer_instance

theorem deserAll_map (f : Json → Option α) (g : α → Json) (l : List α)
    (h : ∀ x ∈ l, f (g x) = some x) :
    deserAll f (l.map g) = some l := by
  induction l with
  | nil => rfl
  | cons x tl ih =>
      simp only [List.map_cons, deserAll, h x (List.mem_cons_self x tl),
        Option.some_bind, ih (fun y hy => h y (List.mem_cons_of_mem x hy)),
        Option.map_some']

theorem deserAttachment_ser (a : Attachment) (hb : ∀ x ∈ a.content, x < 256)
    (hr : -2147483648 ≤ a.contentLength ∧ a.contentLength ≤ 2147483647) :
    deserAttachment (serAttachment a) = some a := by
  show deserAttachmentFields
      [("Name", .str a.name),
       ("Content", .str (String.mk (encB64 a.content))),
       ("ContentType", .str a.contentType),
       ("ContentLength", .num a.contentLength)]
      none none none none = some a
  rw [show deserAttachmentFields
      [("Name", .str a.name),
       ("Content", .str (String.mk (encB64 a.content))),
       ("ContentType", .str a.contentType),
       ("ContentLength", .num a.contentLength)]
      none none none none =
    (decB64 (encB64 a.content)).bind fun s =>
      deserAttachmentFields
        [("ContentType", .str a.contentType),
         ("ContentLength", .num a.contentLength)]
        (some a.name) (some s) none none from rfl]
  rw [decB64_encB64 a.content hb]
  simp only [Option.some_bind]
  rw [show deserAttachmentFields
      [("ContentType", .str a.contentType),
       ("ContentLength", .num a.contentLength)]
      (some a.name) (some a.content) none none =
    (deserI32 (.num a.contentLength)).bind fun s =>
      deserAttachmentFields [] (some a.name) (some a.content)
        (some a.contentType) (some s) from rfl]
  simp only [deserI32, if_pos hr, Option.some_bind]
  rfl

/-- Step equations of the derived deserializer, one per field key
(each is definitional). -/
theorem deserInboundFields_nil (st : InboundSlots) :
    deserInboundFields [] st = finishInbound st := rfl

theorem stepInboundFromName (v : Json) (rest : List (String × Json))
    (st : InboundSlots) :
    deserInboundFields (("FromName", v) :: rest) st =
      fillSlot st.fromName (deserStr v) fun s =>
        deserInboundFields rest { st with fromName := s } := rfl

theorem stepInboundMessageStream (v : Json) (rest : List (String × Json))
    (st : InboundSlots) :
    deserInboundFields (("MessageStream", v) :: rest) st =
      fillSlot st.messageStream (deserStr v) fun s =>
        deserInboundFields rest { st with messageStream := s } := rfl

theorem stepInboundFromFull (v : Json) (rest : List (String × Json))
    (st : InboundSlots) :
    deserInboundFields (("FromFull", v) :: rest) st =
      fillSlot st.fromFull (deserParticipant v) fun s =>
        deserInboundFields rest { st with fromFull := s } := rfl

theorem stepInboundToFull (v : Json) (rest : List (String × Json))
    (st : InboundSlots) :
    deserInboundFields (("ToFull", v) :: rest) st =
      fillSlot st.toFull (deserList deserParticipant v) fun s =>
        deserInboundFields rest { st with toFull := s } := rfl

theorem stepInboundCcFull (v : Json) (rest : List (String × Json))
    (st : InboundSlots) :
    deserInboundFields (("CcFull", v) :: rest) st =
      fillSlot st.ccFull (deserList deserParticipant v) fun s =>
        deserInboundFields rest { st with ccFull := s } := rfl

theorem stepInboundBccFull (v : Json) (rest : List (String × Json))
    (st : InboundSlots) :
    deserInboundFields (("BccFull", v) :: rest) st =
      fillSlot st.bccFull (deserList deserParticipant v) fun s =>
        deserInboundFields rest { st with bccFull := s } := rfl

theorem stepInboundOriginalRecipient (v : Json) (rest : List (String × Json))
    (st : InboundSlots) :
    deserInboundFields (("OriginalRecipient", v) :: rest) st =
      fillSlot st.originalRecipient (deserStr v) fun s =>
        deserInboundFields rest { st with originalRecipient := s } := rfl

theorem stepInboundSubject (v : Json) (rest : List (String × Json))
    (st : InboundSlots) :
    deserInboundFields (("Subject", v) :: rest) st =
      fillSlot st.subject (deserStr v) fun s =>
        deserInboundFields rest { st with subject := s } := rfl

theorem stepInboundMessageID (v : Json) (rest : List (String × Json))
    (st : InboundSlots) :
    deserInboundFields (("MessageID", v) :: rest) st =
      fillSlot st.messageId (deserStr v) fun s =>
        deserInboundFields rest { st with messageId := s } := rfl

theorem stepInboundReplyTo (v : Json) (rest : List (String × Json))
    (st : InboundSlots) :
    deserInboundFields (("ReplyTo", v) :: rest) st =
      fillSlot st.replyTo (deserStr v) fun s =>
        deserInboundFields rest { st with replyTo := s } := rfl

theorem stepInboundMailboxHash (v : Json) (rest : List (String × Json))
    (st : InboundSlots) :
    deserInboundFields (("MailboxHash", v) :: rest) st =
      fillSlot st.mailboxHash (deserStr v) fun s =>
        deserInboundFields rest { st with mailboxHash := s } := rfl

theorem stepInboundDate (v : Json) (rest : List (String × Json))
    (st : InboundSlots) :
    deserInboundFields (("Date", v) :: rest) st =
      fillSlot st.date (deserDate v) fun s =>
        deserInboundFields rest { st with date := s } := rfl

theorem stepInboundTextBody (v : Json) (rest : List (String × Json))
    (st : InboundSlots) :
    deserInboundFields (("TextBody", v) :: rest) st =
      fillSlot st.textBody (deserStr v) fun s =>
        deserInboundFields rest { st with textBody := s } := rfl

theorem stepInboundHtmlBody (v : Json) (rest : List (String × Json))
    (st : InboundSlots) :
    deserInboundFields (("HtmlBody", v) :: rest) st =
      fillSlot st.htmlBody (deserStr v) fun s =>
        deserInboundFields rest { st with htmlBody := s } := rfl

theorem stepInboundStrippedTextReply (v : Json) (rest : List (String × Json))
    (st : InboundSlots) :
    deserInboundFields (("StrippedTextReply", v) :: rest) st =
      fillSlot st.strippedTextReply (deserStr v) fun s =>
        deserInboundFields rest { st with strippedTextReply := s } := rfl

theorem stepInboundTag (v : Json) (rest : List (String × Json))
    (st : InboundSlots) :
    deserInboundFields (("Tag", v) :: rest) st =
      fillSlot st.tag (deserStr v) fun s =>
        deserInboundFields rest { st with tag := s } := rfl

theorem stepInboundHeaders (v : Json) (rest : List (String × Json))
    (st : InboundSlots) :
    deserInboundFields (("Headers", v) :: rest) st =
      fillSlot st.headers (deserList deserHeader v) fun s =>
        deserInboundFields rest { st with headers := s } := rfl

theorem stepInboundAttachments (v : Json) (rest : List (String × Json))
    (st : InboundSlots) :
    deserInboundFields (("Attachments", v) :: rest) st =
      fillSlot st.attachments (deserList deserAttachment v) fun s =>
        deserInboundFields rest { st with attachments := s } := rfl

set_option maxRecDepth 8192 in
/-- Deserializing the serialization of a valid whole-second
`InboundEmail` restores it exactly (the round-trip law P3). -/
theorem inbound_roundtrip_aux (e : InboundEmail) (hv : ValidInboundEmail e)
    (hn : e.date.nano = 0) :
    deserInboundEmail (serInboundEmail e) = some e := by
  obtain ⟨hd, hatt⟩ := hv
  have hFrom : deserParticipant (serParticipant e.fromFull) = some e.fromFull := rfl
  have hTo := deserAll_map deserParticipant serParticipant e.toFull
    (fun x _ => rfl)
  have hCc := deserAll_map deserParticipant serParticipant e.ccFull
    (fun x _ => rfl)
  have hBcc := deserAll_map deserParticipant serParticipant e.bccFull
    (fun x _ => rfl)
  have hDate := parseInboundDate_fmt e.date hd hn
  have hHead := deserAll_map deserHeader serHeader e.headers (fun x _ => rfl)
  have hAtt := deserAll_map deserAttachment serAttachment e.attachments
    (fun a ha => deserAttachment_ser a (hatt a ha).1 (hatt a ha).2)
  simp only [serInboundEmail, deserInboundEmail,
    stepInboundFromName, stepInboundMessageStream, stepInboundFromFull, stepInboundToFull, stepInboundCcFull, stepInboundBccFull, stepInboundOriginalRecipient, stepInboundSubject, stepInboundMessageID, stepInboundReplyTo, stepInboundMailboxHash, stepInboundDate, stepInboundTextBody, stepInboundHtmlBody, stepInboundStrippedTextReply, stepInboundTag, stepInboundHeaders, stepInboundAttachments,
    deserInboundFields_nil, fillSlot, deserStr, deserDate, deserList,
    hFrom, hTo, hCc, hBcc, hDate, hHead, hAtt, Option.some_bind, finishInbound]

/-! ## `BaseUrl` and the error taxonomy (`src/base_url.rs`, `src/error.rs`)

A parsed `url::Url` is represented by the facts the code reads off it:
its scheme, whether it `cannot_be_a_base`, and its serialization (what
`Display` prints). Concrete values below are those of the WHATWG URL
parser, matching the crate's own unit tests. -/

structure Url where
  scheme : String
  cannotBeABase : Bool
  serialization : String
deriving DecidableEq, Repr

/-- Models `client.rs` `ErrorReceipt`: `error_code: u16`, `message: String`. -/
structure ErrorReceipt where
  errorCode : Nat
  message : String
deriving DecidableEq, Repr

/-- Models `client.rs` `SendReceipt`: `to`, `submitted_at: DateTime<Utc>`,
`message_id`. -/
structure SendReceipt where
  to_ : String
  submittedAt : DateTimeUtc
  messageId : String
deriving DecidableEq, Repr

/-- Models `error.rs` `PostmarkError`. -/
inductive PostmarkError where
  | unprocessableEntity (receipt : ErrorReceipt)
  | other (status : Nat)
deriving DecidableEq, Repr

/-- Models `error.rs` `Error`: URL validation, transport (`reqwest`) and API
errors. A transport error is represented by its message. -/
inductive Error where
  | url (actual : Url) (reason : String)
  | httpClient (message : String)
  | postmark (e : PostmarkError)
deriving DecidableEq, Repr

/-- Models `Display` for `Error::Url`: the `thiserror` format string
`"{reason}, was \x60{actual}\x60"`, a `url::Url` displaying as its
serialization. -/
def renderUrlError (actual : Url) (reason : String) : String :=
  reason ++ ", was `" ++ actual.serialization ++ "`"

structure BaseUrl where
  url : Url
deriving DecidableEq, Repr

/-- Models `TryFrom<Url> for BaseUrl`: reject URLs that cannot be a base, then
reject schemes outside `["https", "http"]`. -/
def BaseUrl.tryFrom (value : Url) : Except Error BaseUrl :=
  if value.cannotBeABase then
    .error (.url value "expecting a base URL")
  else if ¬(value.scheme = "https" ∨ value.scheme = "http") then
    .error (.url value "expecting an HTTP URL")
  else .ok ⟨value⟩

/-- Models `Url::parse("https://api.postmarkapp.com").unwrap()`: an http(s) URL
always gets a trailing-slash path, so it serializes as
`https://api.postmarkapp.com/`, per the crate's `test_default`. -/
def postmarkProdUrl : Url :=
  ⟨"https", false, "https://api.postmarkapp.com/"⟩

/-- Models `BaseUrl::default()`. (The `url.try_into().unwrap()` in the source
elaborates at type `Url` — the reflexive conversion — so the wrap itself
performs no validation; validation of this URL succeeds anyway, see
`c8_default_base_url`.) -/
def BaseUrl.defaultValue : BaseUrl := ⟨postmarkProdUrl⟩

/-- Models `"wss://example.com".parse::<Url>()`, from the crate's
`test_not_http_url`. -/
def wssExampleUrl : Url := ⟨"wss", false, "wss://example.com/"⟩

/-- Models `"data:text/plain,Stuff".parse::<Url>()`, from the crate's
`test_not_base_url`: an opaque URL, `cannot_be_a_base`. -/
def dataTextUrl : Url := ⟨"data", true, "data:text/plain,Stuff"⟩

/-! ## The client (`src/client.rs`) -/

/-- Models `EmailBody`. -/
inductive EmailBody where
  | html (body : String)
  | text (body : String)
  | both (html : String) (text : String)
deriving DecidableEq, Repr

/-- Models `EmailBody::into_tuple`: the pair (HTML body, text body). -/
def EmailBody.intoTuple : EmailBody → Option String × Option String
  | .html h => (some h, none)
  | .text t => (none, some t)
  | .both h t => (some h, some t)

/-- Models `OutboundEmail`. -/
structure OutboundEmail where
  recipients : List String
  subject : String
  body : EmailBody
deriving DecidableEq, Repr

/-- Models `SendEmailPayload` (the field `from` is a Lean keyword, hence `from_`). -/
structure SendEmailPayload where
  from_ : String
  to_ : String
  subject : String
  htmlBody : Option String
  textBody : Option String
  messageStream : Option String
deriving DecidableEq, Repr

/-- serde serializes an `Option<&str>` field without
`skip_serializing_if` as the string or as JSON `null`. -/
def optStrJson : Option String → Json
  | none => .null
  | some s => .str s

/-- serde `Serialize` derive for `SendEmailPayload` with
`rename_all = "PascalCase"`: all six fields are emitted, in declaration
order. -/
def serSendEmailPayload (p : SendEmailPayload) : Json :=
  .obj [("From", .str p.from_), ("To", .str p.to_),
    ("Subject", .str p.subject), ("HtmlBody", optStrJson p.htmlBody),
    ("TextBody", optStrJson p.textBody),
    ("MessageStream", optStrJson p.messageStream)]

/-- The payload `send_email` builds: recipients joined with `","`, the
body decomposed by `into_tuple`. -/
def buildSendEmailPayload (sender : String) (messageStream : Option String)
    (email : OutboundEmail) : SendEmailPayload :=
  ⟨sender, String.intercalate "," email.recipients, email.subject,
    email.body.intoTuple.1, email.body.intoTuple.2, messageStream⟩

/-! ## Receipt deserialization and status dispatch

`SendReceipt.submitted_at` is a `chrono::DateTime<Utc>`, whose serde
deserializer parses an RFC 3339 date-time string and converts it to
UTC. -/

/-- Exactly two digit characters. -/
def exact2 : List Char → Option (Nat × List Char)
  | a :: b :: rest =>
      if isDigitCh a && isDigitCh b then
        some (digitVal a * 10 + digitVal b, rest)
      else none
  | _ => none

/-- Exactly four digit characters. -/
def exact4 : List Char → Option (Nat × List Char)
  | a :: b :: c :: d :: rest =>
      if isDigitCh a && isDigitCh b && isDigitCh c && isDigitCh d then
        some (digitVal a * 1000 + digitVal b * 100 + digitVal c * 10 + digitVal d,
          rest)
      else none
  | _ => none

/-- The maximal digit prefix. -/
def takeDigits : List Char → List Nat × List Char
  | [] => ([], [])
  | c :: rest =>
      if isDigitCh c then
        match takeDigits rest with
        | (ds, r) => (digitVal c :: ds, r)
      else ([], c :: rest)

/-- RFC 3339 fraction digits as nanoseconds: the first nine digits,
right-padded with zeros (further digits are ignored). -/
def fracNanos (ds : List Nat) : Nat :=
  ((ds.take 9).foldl (fun a d => a * 10 + d) 0) * 10 ^ (9 - (ds.take 9).length)

/-- Optional `.fraction` after the seconds. -/
def parseRfcFrac : List Char → Option (Nat × List Char)
  | '.' :: rest =>
      match takeDigits rest with
      | ([], _) => none
      | (ds, r) => some (fracNanos ds, r)
  | s => some (0, s)

/-- RFC 3339 offset: `Z`/`z` or `±hh:mm`. -/
def parseRfcOffset : List Char → Option (Int × List Char)
  | [] => none
  | c :: rest =>
      if c = 'Z' ∨ c = 'z' then some (0, rest)
      else if c = '+' ∨ c = '-' then
        (exact2 rest).bind fun p1 =>
          (expectChar ':' p1.2).bind fun r2 =>
            (exact2 r2).bind fun p2 =>
              let off : Int := (p1.1 * 3600 + p2.1 * 60 : Nat)
              some (if c = '-' then -off else off, p2.2)
      else none

/-- Validate civil components as chrono's constructors do (no weekday
check; a 60th second becomes a leap second). -/
def buildCivil (y : Int) (m d hh mi ss nano : Nat) : Option DateTimeUtc :=
  if 1 ≤ m ∧ m ≤ 12 ∧ 1 ≤ d ∧ d ≤ daysInMonth y m ∧ -262144 ≤ y ∧ y ≤ 262143 then
    if hh < 24 ∧ mi < 60 ∧ ss ≤ 60 ∧ nano < 1000000000 then
      if ss = 60 then some ⟨y, m, d, hh, mi, 59, 1000000000 + nano⟩
      else some ⟨y, m, d, hh, mi, ss, nano⟩
    else none
  else none

/-- The serde deserializer of `DateTime<Utc>`: parse RFC 3339
(`yyyy-mm-ddThh:mm:ss[.frac](Z|±hh:mm)`) and convert the instant to
UTC. -/
def parseRfc3339 (str : String) : Option DateTimeUtc :=
  (exact4 str.data).bind fun py =>
  (expectChar '-' py.2).bind fun s1 =>
  (exact2 s1).bind fun pm =>
  (expectChar '-' pm.2).bind fun s2 =>
  (exact2 s2).bind fun pd =>
  (match pd.2 with
    | c :: rest => if c = 'T' ∨ c = 't' then some rest else none
    | [] => none).bind fun s3 =>
  (exact2 s3).bind fun ph =>
  (expectChar ':' ph.2).bind fun s4 =>
  (exact2 s4).bind fun pmi =>
  (expectChar ':' pmi.2).bind fun s5 =>
  (exact2 s5).bind fun ps =>
  (parseRfcFrac ps.2).bind fun pf =>
  (parseRfcOffset pf.2).bind fun po =>
  if po.2 = [] then
    if -86400 < po.1 ∧ po.1 < 86400 then
      (buildCivil (py.1 : Int) pm.1 pd.1 ph.1 pmi.1 ps.1 pf.1).bind fun t =>
        applyOffset t po.1
    else none
  else none

/-- The `rfc3339`-backed serde deserializer visits a string. -/
def deserRfcDate : Json → Option DateTimeUtc
  | .str s => parseRfc3339 s
  | _ => none

/-- serde `u16` deserialization: an integer in the `u16` range. -/
def deserU16 : Json → Option Nat
  | .num n => if 0 ≤ n ∧ n ≤ 65535 then some n.toNat else none
  | _ => none

def deserSendReceiptFields : List (String × Json) →
    Option String → Option DateTimeUtc → Option String → Option SendReceipt
  | [], some t, some s, some m => some ⟨t, s, m⟩
  | [], _, _, _ => none
  | (k, v) :: rest, t, s, m =>
      if k = "To" then
        match t with
        | some _ => none
        | none => (deserStr v).bind fun x => deserSendReceiptFields rest (some x) s m
      else if k = "SubmittedAt" then
        match s with
        | some _ => none
        | none => (deserRfcDate v).bind fun x => deserSendReceiptFields rest t (some x) m
      else if k = "MessageID" then
        match m with
        | some _ => none
        | none => (deserStr v).bind fun x => deserSendReceiptFields rest t s (some x)
      else deserSendReceiptFields rest t s m

/-- serde `Deserialize` derive for `SendReceipt`
(`rename_all = "PascalCase"`, `message_id` renamed `MessageID`). -/
def deserSendReceipt : Json → Option SendReceipt
  | .obj fs => deserSendReceiptFields fs none none none
  | _ => none

def deserErrorReceiptFields : List (String × Json) →
    Option Nat → Option String → Option ErrorReceipt
  | [], some c, some m => some ⟨c, m⟩
  | [], _, _ => none
  | (k, v) :: rest, c, m =>
      if k = "ErrorCode" then
        match c with
        | some _ => none
        | none => (deserU16 v).bind fun x => deserErrorReceiptFields rest (some x) m
      else if k = "Message" then
        match m with
        | some _ => none
        | none => (deserStr v).bind fun x => deserErrorReceiptFields rest c (some x)
      else deserErrorReceiptFields rest c m

/-- serde `Deserialize` derive for `ErrorReceipt`. -/
def deserErrorReceipt : Json → Option ErrorReceipt
  | .obj fs => deserErrorReceiptFields fs none none
  | _ => none

/-- The response dispatch at the end of `PostmarkClient::send_email`,
as a pure function of the response's status code and JSON body:
`200` parses a `SendReceipt`; `422` parses an `ErrorReceipt` and wraps
it in `PostmarkError::UnprocessableEntity`; anything else becomes
`PostmarkError::Other(status)` without touching the body. A body that
fails to parse in the first two arms surfaces as the transport-level
`Error::HttpClient` (a `reqwest` decode error). -/
def handleSendResponse (status : Nat) (body : Json) : Except Error SendReceipt :=
  if status = 200 then
    match deserSendReceipt body with
    | some r => .ok r
    | none => .error (.httpClient "error decoding response body")
  else if status = 422 then
    match deserErrorReceipt body with
    | some r => .error (.postmark (.unprocessableEntity r))
    | none => .error (.httpClient "error decoding response body")
  else .error (.postmark (.other status))

/-! ## Concrete values used by witnesses and counterexamples -/

def epochDate : DateTimeUtc := ⟨1970, 1, 1, 0, 0, 0, 0⟩

/-- An `InboundEmail` whose date carries sub-second precision. -/
def exSubSecond : InboundEmail :=
  ⟨"", "", ⟨"", "", ""⟩, [], [], [], "", "", "", "", "",
    ⟨1970, 1, 1, 0, 0, 0, 500000000⟩, "", "", "", "", [], []⟩

/-- A populated whole-second `InboundEmail`. -/
def exInbound : InboundEmail :=
  ⟨"Postmarkapp Support", "inbound",
    ⟨"support@postmarkapp.com", "Postmarkapp Support", "ahoy"⟩,
    [⟨"to@example.com", "To", ""⟩], [], [], "to@example.com", "Hi",
    "id-123", "reply@example.com", "ahoy", ⟨2014, 2, 17, 12, 25, 1, 0⟩,
    "text", "<b>html</b>", "stripped", "tag", [⟨"X-Spam", "No"⟩],
    [⟨"file.txt", [104, 105], "text/plain", 2⟩]⟩

/-- A second whole-second `InboundEmail`, empty lists. -/
def exInboundSmall : InboundEmail :=
  ⟨"f", "ms", ⟨"e@x", "n", ""⟩, [], [], [], "o", "s", "mid", "r", "mh",
    ⟨2012, 4, 5, 16, 59, 1, 0⟩, "tb", "hb", "st", "tg", [], []⟩

/-- An inbound document whose `Date` carries a `-05:00` offset. -/
def exDoc5 : Json :=
  .obj [("FromName", .str "f"), ("MessageStream", .str "ms"),
    ("FromFull", .obj [("Email", .str "e@x"), ("Name", .str "n"),
      ("MailboxHash", .str "")]),
    ("ToFull", .arr []), ("CcFull", .arr []), ("BccFull", .arr []),
    ("OriginalRecipient", .str "o"), ("Subject", .str "s"),
    ("MessageID", .str "mid"), ("ReplyTo", .str "r"),
    ("MailboxHash", .str "mh"),
    ("Date", .str "Mon, 17 Feb 2014 07:25:01 -05:00"),
    ("TextBody", .str "tb"), ("HtmlBody", .str "hb"),
    ("StrippedTextReply", .str "st"), ("Tag", .str "tg"),
    ("Headers", .arr []), ("Attachments", .arr [])]

/-- An inbound document whose attachment claims `ContentLength` 5 while
its `Content` decodes to zero bytes. -/
def exDoc10 : Json :=
  .obj [("FromName", .str "f"), ("MessageStream", .str "ms"),
    ("FromFull", .obj [("Email", .str "e@x"), ("Name", .str "n"),
      ("MailboxHash", .str "")]),
    ("ToFull", .arr []), ("CcFull", .arr []), ("BccFull", .arr []),
    ("OriginalRecipient", .str "o"), ("Subject", .str "s"),
    ("MessageID", .str "mid"), ("ReplyTo", .str "r"),
    ("MailboxHash", .str "mh"),
    ("Date", .str "Thu, 1 Jan 1970 00:00:00 +00:00"),
    ("TextBody", .str "tb"), ("HtmlBody", .str "hb"),
    ("StrippedTextReply", .str "st"), ("Tag", .str "tg"),
    ("Headers", .arr []),
    ("Attachments", .arr [.obj [("Name", .str "a"), ("Content", .str ""),
      ("ContentType", .str "text/plain"), ("ContentLength", .num 5)]])]

def exEmail10 : InboundEmail :=
  ⟨"f", "ms", ⟨"e@x", "n", ""⟩, [], [], [], "o", "s", "mid", "r", "mh",
    epochDate, "tb", "hb", "st", "tg", [], [⟨"a", [], "text/plain", 5⟩]⟩

/-- The keys of a JSON object, in order. -/
def jsonKeys : Json → Option (List String)
  | .obj fs => some (fs.map Prod.fst)
  | _ => none

/-- Whether key `k` of a JSON object is bound to `null`. -/
def isNullField (k : String) : Json → Bool
  | .obj fs =>
      match fs.lookup k with
      | some .null => true
      | _ => false
  | _ => false

/-- The string bound to key `k` of a JSON object, when there is one. -/
def getStrField (k : String) : Json → Option String
  | .obj fs =>
      match fs.lookup k with
      | some (.str s) => some s
      | _ => none
  | _ => none

def exPayload : SendEmailPayload :=
  ⟨"a@b.c", "x@y.z", "subj", some "<b>hi</b>", none, none⟩

def ex200Body : Json :=
  .obj [("To", .str "receiver@example.com"),
    ("SubmittedAt", .str "2014-02-17T12:25:01Z"),
    ("MessageID", .str "id-1")]

def ex200Receipt : SendReceipt :=
  ⟨"receiver@example.com", ⟨2014, 2, 17, 12, 25, 1, 0⟩, "id-1"⟩

def ex422Body : Json :=
  .obj [("ErrorCode", .num 405), ("Message", .str "details")]

instance [DecidableEq ε] [DecidableEq α] : DecidableEq (Except ε α) := fun a b =>
  match a, b with
  | .ok x, .ok y =>
      if h : x = y then .isTrue (h ▸ rfl)
      else .isFalse (fun he => h (Except.ok.inj he))
  | .error x, .error y =>
      if h : x = y then .isTrue (h ▸ rfl)
      else .isFalse (fun he => h (Except.error.inj he))
  | .ok _, .error _ => .isFalse (fun he => Except.noConfusion he)
  | .error _, .ok _ => .isFalse (fun he => Except.noConfusion he)

/-! ## The claims -/


/-- C1 (counterexample): an `InboundEmail` whose date has nanosecond
precision is a well-typed, invariant-satisfying value, yet
`deserialize(serialize(x))` drops the nanoseconds and differs from `x`:
the round-trip law fails as stated. -/
theorem c1_nanosecond_cex :
    ValidInboundEmail exSubSecond ∧
    deserInboundEmail (serInboundEmail exSubSecond) =
      some { exSubSecond with date := epochDate } ∧
    deserInboundEmail (serInboundEmail exSubSecond) ≠ some exSubSecond := by
  refine ⟨by decide, by decide, by decide⟩

/-- C1 (amended): for every `InboundEmail` satisfying the Rust type
invariants whose date is a whole second (zero nanoseconds),
`deserialize(serialize(x)) = x`, nested `Participant`, `Header` and
`Attachment` lists and the custom date and base64 fields included. -/
theorem c1_roundtrip_amended (x : InboundEmail) (hv : ValidInboundEmail x)
    (hn : x.date.nano = 0) :
    deserInboundEmail (serInboundEmail x) = some x :=
  inbound_roundtrip_aux x hv hn

theorem c1_roundtrip_amended_witness :
    ValidInboundEmail exInbound ∧ exInbound.date.nano = 0 ∧
    deserInboundEmail (serInboundEmail exInbound) = some exInbound :=
  ⟨by decide, rfl, c1_roundtrip_amended exInbound (by decide) rfl⟩

/-- C2: the status dispatch of `send_email`: 200 with a well-formed body
is success carrying that `SendReceipt`; 422 with a well-formed body is
the domain error carrying that body's code and message; any other
status is the domain error carrying only the status code, for every
body. -/
theorem c2_status_mapping (status : Nat) (body : Json) :
    (∀ r, status = 200 → deserSendReceipt body = some r →
      handleSendResponse status body = .ok r) ∧
    (∀ er, status = 422 → deserErrorReceipt body = some er →
      handleSendResponse status body =
        .error (.postmark (.unprocessableEntity er))) ∧
    (status ≠ 200 → status ≠ 422 →
      handleSendResponse status body = .error (.postmark (.other status))) := by
  refine ⟨?_, ?_, ?_⟩
  · intro r h200 hr
    subst h200
    simp [handleSendResponse, hr]
  · intro er h422 her
    subst h422
    simp [handleSendResponse, her]
  · intro h1 h2
    simp [handleSendResponse, h1, h2]

theorem c2_status_mapping_witness :
    handleSendResponse 200 ex200Body = .ok ex200Receipt ∧
    handleSendResponse 422 ex422Body =
      .error (.postmark (.unprocessableEntity ⟨405, "details"⟩)) ∧
    handleSendResponse 503 ex200Body = .error (.postmark (.other 503)) :=
  ⟨(c2_status_mapping 200 ex200Body).1 ex200Receipt rfl (by decide),
   (c2_status_mapping 422 ex422Body).2.1 ⟨405, "details"⟩ rfl (by decide),
   (c2_status_mapping 503 ex200Body).2.2 (by decide) (by decide)⟩

/-- C3 (counterexample): the opaque URL `data:text/plain,Stuff` has a
scheme outside {http, https}, yet `try_from` rejects it with the
"expecting a base URL" reason, not "expecting an HTTP URL": the
`cannot_be_a_base` check runs first, so the claim's first clause is
false as stated. -/
theorem c3_scheme_clause_cex :
    ¬(dataTextUrl.scheme = "https" ∨ dataTextUrl.scheme = "http") ∧
    BaseUrl.tryFrom dataTextUrl ≠
      .error (.url dataTextUrl "expecting an HTTP URL") ∧
    BaseUrl.tryFrom dataTextUrl =
      .error (.url dataTextUrl "expecting a base URL") := by
  refine ⟨by decide, by decide, by decide⟩

/-- C3 (amended): every URL incapable of being a base fails with
"expecting a base URL"; every URL that can be a base but whose scheme is
outside {http, https} fails with "expecting an HTTP URL"; either error
renders as `"<reason>, was \x60<url>\x60"`. -/
theorem c3_url_validation_amended (u : Url) :
    (u.cannotBeABase = true →
      BaseUrl.tryFrom u = .error (.url u "expecting a base URL")) ∧
    (u.cannotBeABase = false → u.scheme ≠ "https" → u.scheme ≠ "http" →
      BaseUrl.tryFrom u = .error (.url u "expecting an HTTP URL")) ∧
    (∀ reason, renderUrlError u reason =
      reason ++ ", was `" ++ u.serialization ++ "`") := by
  refine ⟨?_, ?_, fun reason => rfl⟩
  · intro h
    simp [BaseUrl.tryFrom, h]
  · intro h h1 h2
    simp [BaseUrl.tryFrom, h, h1, h2]

theorem c3_url_validation_amended_witness :
    BaseUrl.tryFrom dataTextUrl =
      .error (.url dataTextUrl "expecting a base URL") ∧
    BaseUrl.tryFrom wssExampleUrl =
      .error (.url wssExampleUrl "expecting an HTTP URL") ∧
    renderUrlError wssExampleUrl "expecting an HTTP URL" =
      "expecting an HTTP URL, was `wss://example.com/`" :=
  ⟨(c3_url_validation_amended dataTextUrl).1 rfl,
   (c3_url_validation_amended wssExampleUrl).2.1 rfl (by decide) (by decide),
   (c3_url_validation_amended wssExampleUrl).2.2 "expecting an HTTP URL"⟩

/-- C4 (counterexample): with `text_body` and `message_stream` absent,
the serialized payload still carries the keys `TextBody` and
`MessageStream`, bound to JSON `null` — the optional fields are not
omitted. -/
theorem c4_null_not_omitted_cex :
    jsonKeys (serSendEmailPayload exPayload) =
      some ["From", "To", "Subject", "HtmlBody", "TextBody", "MessageStream"] ∧
    isNullField "TextBody" (serSendEmailPayload exPayload) = true ∧
    isNullField "MessageStream" (serSendEmailPayload exPayload) = true := by
  refine ⟨rfl, rfl, rfl⟩

/-- C4 (amended): the serialized body uses exactly the PascalCase keys
From, To, Subject, HtmlBody, TextBody, MessageStream, and each optional
field is emitted as JSON `null` (not omitted) exactly when the
corresponding input is absent. -/
theorem c4_payload_keys_amended (p : SendEmailPayload) :
    jsonKeys (serSendEmailPayload p) =
      some ["From", "To", "Subject", "HtmlBody", "TextBody", "MessageStream"] ∧
    isNullField "HtmlBody" (serSendEmailPayload p) = p.htmlBody.isNone ∧
    isNullField "TextBody" (serSendEmailPayload p) = p.textBody.isNone ∧
    isNullField "MessageStream" (serSendEmailPayload p) = p.messageStream.isNone := by
  obtain ⟨f, t, su, hb, tb, ms⟩ := p
  cases hb <;> cases tb <;> cases ms <;> exact ⟨rfl, rfl, rfl, rfl⟩

/-- C5 (counterexample): a valid inbound document whose `Date` carries
the non-zero offset `-05:00` deserializes, but re-serializing emits the
date at UTC with a `+00:00` offset, so `serialize(deserialize(x)) ≠ x`
for offset-bearing documents. -/
theorem c5_offset_not_preserved_cex :
    (deserInboundEmail exDoc5).isSome = true ∧
    ((deserInboundEmail exDoc5).map serInboundEmail).bind
      (getStrField "Date") = some "Mon, 17 Feb 2014 12:25:01 +00:00" ∧
    getStrField "Date" exDoc5 = some "Mon, 17 Feb 2014 07:25:01 -05:00" ∧
    (deserInboundEmail exDoc5).map serInboundEmail ≠ some exDoc5 := by
  refine ⟨by decide, by decide, by decide, fun h => ?_⟩
  have h2 := congrArg (fun o => o.bind (getStrField "Date")) h
  simp only [] at h2
  rw [show ((deserInboundEmail exDoc5).map serInboundEmail).bind
      (getStrField "Date") = some "Mon, 17 Feb 2014 12:25:01 +00:00" from
      by decide] at h2
  rw [show (some exDoc5).bind (getStrField "Date") =
      some "Mon, 17 Feb 2014 07:25:01 -05:00" from by decide] at h2
  exact absurd h2 (by decide)

/-- C5 (amended): for documents in the image of serialization — the
canonical form, whose `Date` offset is `+00:00` —
`serialize(deserialize(x)) = x`. -/
theorem c5_reserialize_amended (x : InboundEmail) (hv : ValidInboundEmail x)
    (hn : x.date.nano = 0) :
    (deserInboundEmail (serInboundEmail x)).map serInboundEmail =
      some (serInboundEmail x) := by
  rw [inbound_roundtrip_aux x hv hn, Option.map_some']

theorem c5_reserialize_amended_witness :
    ValidInboundEmail exInboundSmall ∧ exInboundSmall.date.nano = 0 ∧
    (deserInboundEmail (serInboundEmail exInboundSmall)).map serInboundEmail =
      some (serInboundEmail exInboundSmall) :=
  ⟨by decide, rfl, c5_reserialize_amended exInboundSmall (by decide) rfl⟩

/-- C6 (counterexample): serialization of the date recomputes the fixed
pattern from the UTC instant, but `%:z` renders the offset as `+00:00`
(with a colon), never as `+0000`. -/
theorem c6_offset_string_cex :
    fmtInboundDate epochDate = "Thu, 1 Jan 1970 00:00:00 +00:00" ∧
    (fmtInboundDate epochDate).takeRight 5 ≠ "+0000" ∧
    (fmtInboundDate epochDate).takeRight 6 = "+00:00" := by
  refine ⟨by decide, by decide, by decide⟩

/-- C6 (amended): for every date value the serializer emits the fixed
pattern recomputed from the stored UTC instant, and the emitted numeric
UTC offset is always exactly the string `+00:00`. -/
theorem c6_offset_amended (t : DateTimeUtc) :
    ∃ p : List Char,
      fmtInboundDate t = String.mk (p ++ [' ', '+', '0', '0', ':', '0', '0']) := by
  refine ⟨weekdayChars (weekdayOf t.year t.month t.day) ++
    ',' :: ' ' :: (natChars t.day ++ ' ' :: (monthChars t.month ++
      ' ' :: (fmtYear t.year ++ ' ' :: (padChars 2 t.hour ++
        ':' :: (padChars 2 t.minute ++ ':' :: fmtSecondChars t))))), ?_⟩
  unfold fmtInboundDate fmtInboundDateChars
  simp [List.append_assoc]

/-- C7 (counterexample): the literal `"Wed, 17 Feb 2014 07:25:01 -0500"`
does not parse: 2014-02-17 is a Monday and chrono rejects a date-weekday
mismatch. -/
theorem c7_wed_parse_cex :
    parseInboundDate "Wed, 17 Feb 2014 07:25:01 -0500" = none ∧
    weekdayOf 2014 2 17 = .mon := by
  refine ⟨by decide, by decide⟩

/-- C7 (amended): with the correct weekday, the literal
`"Mon, 17 Feb 2014 07:25:01 -0500"` parses and yields the UTC instant
2014-02-17T12:25:01Z. -/
theorem c7_date_parse_amended :
    parseInboundDate "Mon, 17 Feb 2014 07:25:01 -0500" =
      some ⟨2014, 2, 17, 12, 25, 1, 0⟩ := by decide

/-- C8: the default base URL wraps `https://api.postmarkapp.com/`, and
validating that URL succeeds, yielding exactly the default value. -/
theorem c8_default_base_url :
    BaseUrl.defaultValue.url.serialization = "https://api.postmarkapp.com/" ∧
    BaseUrl.tryFrom postmarkProdUrl = .ok BaseUrl.defaultValue := by
  refine ⟨rfl, by decide⟩

/-- C9: `into_tuple` maps Both{html,text} to (some html, some text),
Html(h) to (some h, none), Text(t) to (none, some t); hence one
component is always present. -/
theorem c9_email_body_tuple (html text : String) :
    EmailBody.intoTuple (.both html text) = (some html, some text) ∧
    EmailBody.intoTuple (.html html) = (some html, none) ∧
    EmailBody.intoTuple (.text text) = (none, some text) ∧
    ∀ b : EmailBody, b.intoTuple.1.isSome ∨ b.intoTuple.2.isSome := by
  refine ⟨rfl, rfl, rfl, fun b => ?_⟩
  cases b <;> simp [EmailBody.intoTuple]

/-- C10: deserialization does not check `ContentLength` against the
decoded bytes: a document whose attachment claims length 5 over an empty
`Content` still deserializes, producing an `Attachment` whose
`content_length` differs from its content's length. -/
theorem c10_content_length_unchecked :
    deserInboundEmail exDoc10 = some exEmail10 ∧
    ∀ a ∈ exEmail10.attachments, a.contentLength ≠ (a.content.length : Int) := by
  refine ⟨by decide, by decide⟩
